import Mathlib

/-!
Verification development for the debris-simulation physics core
(`src/debris_simulation.py`).

The Python code is shallowly embedded over exact rationals `ℚ`.  Python's
`random.uniform(a, b)` is `a + (b - a) * random()` with `random()` drawing
from a unit stream, so the random source is modelled as a stream
`g : ℕ → ℚ` of unit draws together with a cursor.  The two calls
`random.uniform(0, 2*math.pi)` produce angles that are consumed only by
`math.cos` / `math.sin` (the stored `angle` field is cosmetic), so the
direction computation is parameterised by a function
`trig : ℚ → ℚ × ℚ` standing for `u ↦ (cos (2πu), sin (2πu))` applied to
the raw unit draw; no claim depends on the actual trigonometric values.
The ambient clock `pygame.time.get_ticks()` is lifted to an explicit
`current_time` parameter.  Comparisons `‖v‖ < c` with `c ≥ 0` are embedded
as the equivalent `v.x² + v.y² < c²`.
-/

/-- Constants from the top of `debris_simulation.py`. -/
def SCREEN_WIDTH : ℚ := 1200

def SCREEN_HEIGHT : ℚ := 800

def GRAVITY : ℚ × ℚ := (0, 500)

def AIR_RESISTANCE : ℚ := 0.99

def GROUND_Y : ℚ := SCREEN_HEIGHT - 50

def RESTITUTION : ℚ := 0.7

def FRICTION : ℚ := 0.8

/-- `MaterialType` enum. -/
inductive MaterialType where
  | RIGID
  | SEMI_RIGID
  | SOFT
deriving DecidableEq

/-- `Material` dataclass. -/
structure Material where
  density : ℚ
  elasticity : ℚ
  damping : ℚ
  color : ℕ × ℕ × ℕ
  deformation_threshold : ℚ
deriving DecidableEq

/-- The `MATERIALS` table. -/
def MATERIALS : MaterialType → Material
  | .RIGID => ⟨2.5, 0.2, 0.95, (150, 150, 150), 1000⟩
  | .SEMI_RIGID => ⟨1.8, 0.6, 0.85, (200, 150, 100), 300⟩
  | .SOFT => ⟨1.0, 0.9, 0.7, (100, 200, 150), 50⟩

/-- Squared magnitude of a 2-vector; `Vector2D.magnitude v < c` (with
`c ≥ 0`) is embedded as `magnitudeSq v < c²`. -/
def magnitudeSq (v : ℚ × ℚ) : ℚ := v.1 ^ 2 + v.2 ^ 2

/-- The random source: a stream of unit draws (each in `[0,1]`) and a
cursor.  `random.uniform(a, b)` is `a + (b - a) * g i`, advancing the
cursor, exactly Python's implementation of `uniform`. -/
structure Rng where
  g : ℕ → ℚ
  i : ℕ

/-- One raw draw of `random()` from the stream. -/
def Rng.next (r : Rng) : ℚ × Rng := (r.g r.i, ⟨r.g, r.i + 1⟩)

/-- `random.uniform(a, b) = a + (b - a) * random()`. -/
def uniform (a b : ℚ) (r : Rng) : ℚ × Rng :=
  let (u, r') := r.next
  (a + (b - a) * u, r')

/-- `DebrisParticle` state. -/
structure DebrisParticle where
  position : ℚ × ℚ
  velocity : ℚ × ℚ
  size : ℚ
  mass : ℚ
  material_type : MaterialType
  angular_velocity : ℚ
  angle : ℚ
  forces : ℚ × ℚ
  deformation : ℚ
  stress : ℚ
  original_size : ℚ
  trail : List (ℚ × ℚ)
  max_trail_length : ℕ
  collision_count : ℕ
  last_collision_time : ℚ

/-- `DebrisParticle.__init__`.  The constructor draws
`random.uniform(-5, 5)` for `angular_velocity` and
`random.uniform(0, 2*math.pi)` for the cosmetic `angle`; the latter is
stored as the raw unit draw (in turns) since it is never used by the
physics. -/
def DebrisParticle.init (position velocity : ℚ × ℚ) (size : ℚ)
    (material_type : MaterialType) (r : Rng) : DebrisParticle × Rng :=
  let (av, r1) := uniform (-5) 5 r
  let (ang, r2) := r1.next
  ({ position := position
     velocity := velocity
     size := size
     mass := size ^ 2 * (MATERIALS material_type).density / 1000
     material_type := material_type
     angular_velocity := av
     angle := ang
     forces := (0, 0)
     deformation := 0
     stress := 0
     original_size := size
     trail := []
     max_trail_length := 10
     collision_count := 0
     last_collision_time := 0 }, r2)

/-- `DebrisParticle.update_deformation`. -/
def DebrisParticle.update_deformation (p : DebrisParticle)
    (collision_force : ℚ) : DebrisParticle :=
  if p.material_type = MaterialType.SEMI_RIGID then
    let stress1 := p.stress + collision_force / (p.mass * 100)
    let p1 :=
      if stress1 > (MATERIALS p.material_type).deformation_threshold then
        let deformation_amount :=
          (stress1 - (MATERIALS p.material_type).deformation_threshold) / 1000
        let d := min (p.deformation + deformation_amount) 0.3
        { p with
          stress := stress1
          deformation := d
          size := p.original_size * (1 - d) }
      else
        { p with stress := stress1 }
    { p1 with stress := p1.stress * 0.95 }
  else p

/-- Ground branch of `handle_boundary_collisions`: the clamp, the
material-specific response and the deformation update, together with the
`collision_occurred` contribution. -/
def DebrisParticle.groundStep (p : DebrisParticle) : DebrisParticle × Bool :=
  if p.position.2 + p.size > GROUND_Y then
    let pc := { p with position := (p.position.1, GROUND_Y - p.size) }
    let collision_force := |pc.velocity.2| * pc.mass
    let pv :=
      if pc.material_type = MaterialType.RIGID then
        { pc with
          velocity := (pc.velocity.1 * FRICTION,
            -pc.velocity.2 * (MATERIALS pc.material_type).elasticity) }
      else
        { pc with
          velocity := (pc.velocity.1 * (FRICTION * 0.8),
            -pc.velocity.2 * ((MATERIALS pc.material_type).elasticity *
              (MATERIALS pc.material_type).damping)) }
    (pv.update_deformation collision_force, true)
  else (p, false)

/-- Wall branch of `handle_boundary_collisions` (left `if` / right
`elif`). -/
def DebrisParticle.wallStep (p : DebrisParticle) : DebrisParticle × Bool :=
  if p.position.1 - p.size < 0 then
    ({ p with
       position := (p.size, p.position.2)
       velocity := (-p.velocity.1 * (MATERIALS p.material_type).elasticity,
         p.velocity.2) }, true)
  else if p.position.1 + p.size > SCREEN_WIDTH then
    ({ p with
       position := (SCREEN_WIDTH - p.size, p.position.2)
       velocity := (-p.velocity.1 * (MATERIALS p.material_type).elasticity,
         p.velocity.2) }, true)
  else (p, false)

/-- `DebrisParticle.handle_boundary_collisions`. -/
def DebrisParticle.handle_boundary_collisions (p : DebrisParticle)
    (current_time : ℚ) : DebrisParticle :=
  let (p1, c1) := p.groundStep
  let (p2, c2) := p1.wallStep
  if c1 || c2 then
    { p2 with
      collision_count := p2.collision_count + 1
      last_collision_time := current_time }
  else p2

/-- The integration part of `DebrisParticle.update` (gravity, drag,
position, angular damping, trail, force reset), i.e. the method body up
to the final `handle_boundary_collisions` call. -/
def DebrisParticle.integrateStep (p : DebrisParticle) (dt : ℚ) :
    DebrisParticle :=
  let forces := (p.forces.1 + GRAVITY.1 * p.mass, p.forces.2 + GRAVITY.2 * p.mass)
  let acceleration := (forces.1 / p.mass, forces.2 / p.mass)
  let velocity := ((p.velocity.1 + acceleration.1 * dt) * AIR_RESISTANCE,
    (p.velocity.2 + acceleration.2 * dt) * AIR_RESISTANCE)
  let position := (p.position.1 + velocity.1 * dt, p.position.2 + velocity.2 * dt)
  let angular_velocity := p.angular_velocity * 0.99
  let angle := p.angle + angular_velocity * dt
  let trail0 := p.trail ++ [position]
  let trail := if trail0.length > p.max_trail_length then trail0.drop 1 else trail0
  { p with
    position := position
    velocity := velocity
    angular_velocity := angular_velocity
    angle := angle
    trail := trail
    forces := (0, 0) }

/-- `DebrisParticle.update`: integrate, then resolve boundary
collisions. -/
def DebrisParticle.update (p : DebrisParticle) (dt current_time : ℚ) :
    DebrisParticle :=
  (p.integrateStep dt).handle_boundary_collisions current_time

/-- An entry of `ExplosionSystem.explosions`. -/
structure Explosion where
  position : ℚ × ℚ
  time : ℚ
  duration : ℚ

/-- `ExplosionSystem` state. -/
structure ExplosionSystem where
  particles : List DebrisParticle
  explosions : List Explosion

/-- One loop iteration of `ExplosionSystem.create_explosion`: the five
`uniform` draws, the direction via `trig`, and the particle constructor
(which draws twice more). -/
def spawnOne (trig : ℚ → ℚ × ℚ) (position : ℚ × ℚ) (force : ℚ)
    (material_type : MaterialType) (r : Rng) : DebrisParticle × Rng :=
  let (ua, r1) := r.next
  let cs := (trig ua).1
  let sn := (trig ua).2
  let (speed, r2) := uniform (force * 0.3) force r1
  let (bias, r3) := uniform 0 200 r2
  let velocity := (cs * speed, sn * speed - bias)
  let (offset_distance, r4) := uniform 0 30 r3
  let offset := (cs * offset_distance, sn * offset_distance)
  let particle_pos := (position.1 + offset.1, position.2 + offset.2)
  let (size, r5) := uniform 3 15 r4
  DebrisParticle.init particle_pos velocity size material_type r5

/-- The `for _ in range(particle_count)` loop of `create_explosion`,
returning the new particles in creation order. -/
def spawnList (trig : ℚ → ℚ × ℚ) (position : ℚ × ℚ) (force : ℚ)
    (material_type : MaterialType) : ℕ → Rng → List DebrisParticle × Rng
  | 0, r => ([], r)
  | n + 1, r =>
    let (p, r1) := spawnOne trig position force material_type r
    let (rest, r2) := spawnList trig position force material_type n r1
    (p :: rest, r2)

/-- `ExplosionSystem.create_explosion`: append `particle_count` new
particles and one visual explosion record (duration 500). -/
def ExplosionSystem.create_explosion (sys : ExplosionSystem)
    (trig : ℚ → ℚ × ℚ) (position : ℚ × ℚ) (force : ℚ)
    (particle_count : ℕ) (material_type : MaterialType)
    (now : ℚ) (r : Rng) : ExplosionSystem × Rng :=
  let (fresh, r') := spawnList trig position force material_type particle_count r
  ({ particles := sys.particles ++ fresh
     explosions := sys.explosions ++ [⟨position, now, 500⟩] }, r')

/-- `ExplosionSystem.is_particle_active` (the `self` argument is unused
in the source).  `‖v‖ < 50` and `‖v‖ < 10` are embedded as the squared
comparisons. -/
def is_particle_active (p : DebrisParticle) : Bool :=
  if (p.position.1 < -100 ∨ p.position.1 > SCREEN_WIDTH + 100 ∨
      p.position.2 > SCREEN_HEIGHT + 100) ∧ magnitudeSq p.velocity < 50 ^ 2 then
    false
  else if magnitudeSq p.velocity < 10 ^ 2 ∧ p.collision_count > 5 then
    false
  else true

/-- `ExplosionSystem.update`: prune inactive particles, integrate the
survivors, expire stale explosion records.  `pygame.time.get_ticks()` is
the `current_time` parameter. -/
def ExplosionSystem.update (sys : ExplosionSystem) (dt current_time : ℚ) :
    ExplosionSystem :=
  let kept := sys.particles.filter (fun p => is_particle_active p)
  { particles := kept.map (fun p => p.update dt current_time)
    explosions := sys.explosions.filter
      (fun e => current_time - e.time < e.duration) }

/-- Repeated `ExplosionSystem.update` calls over a list of
`(dt, current_time)` pairs. -/
def ExplosionSystem.run (sys : ExplosionSystem) (steps : List (ℚ × ℚ)) :
    ExplosionSystem :=
  steps.foldl (fun s st => s.update st.1 st.2) sys

/-- The SemiRigid state invariant of the spec: the size/deformation
coupling together with the `[0, 0.3]` clamp range. -/
def SemiRigidInv (p : DebrisParticle) : Prop :=
  p.size = p.original_size * (1 - p.deformation) ∧
    0 ≤ p.deformation ∧ p.deformation ≤ 0.3

/-- The ground-contact condition of `handle_boundary_collisions`. -/
abbrev groundContact (p : DebrisParticle) : Prop :=
  p.position.2 + p.size > GROUND_Y

/-- The left-wall condition of `handle_boundary_collisions`. -/
abbrev leftContact (p : DebrisParticle) : Prop :=
  p.position.1 - p.size < 0

/-- The right-wall condition of `handle_boundary_collisions`. -/
abbrev rightContact (p : DebrisParticle) : Prop :=
  p.position.1 + p.size > SCREEN_WIDTH

/-- Forget the diagnostic `last_collision_time` field; two states with
the same `eraseTime` image have identical trajectories. -/
def eraseTime (p : DebrisParticle) : DebrisParticle :=
  { p with last_collision_time := 0 }

/-- A deterministic unit-draw stream (all zeros). -/
def rngZero : Rng := ⟨fun _ => 0, 0⟩

/-- A fixed direction function for witnesses. -/
def trigConst : ℚ → ℚ × ℚ := fun _ => (1, 0)

/-- A concrete SemiRigid particle satisfying the invariant. -/
def sampleSemiRigid : DebrisParticle :=
  { position := (600, 745)
    velocity := (0, 200)
    size := 5
    mass := 5 ^ 2 * 1.8 / 1000
    material_type := .SEMI_RIGID
    angular_velocity := 0
    angle := 0
    forces := (0, 0)
    deformation := 0
    stress := 0
    original_size := 5
    trail := []
    max_trail_length := 10
    collision_count := 0
    last_collision_time := 0 }

/-- A concrete Rigid particle. -/
def sampleRigid : DebrisParticle :=
  { sampleSemiRigid with material_type := .RIGID, mass := 5 ^ 2 * 2.5 / 1000 }

/-- A Rigid particle touching the ground with velocity `(100, 200)`,
away from both walls (the spec's worked example). -/
def sampleGroundRigid : DebrisParticle :=
  { sampleRigid with position := (600, 760), velocity := (100, 200) }

/-- An airborne SemiRigid particle carrying positive stress. -/
def sampleAirborne : DebrisParticle :=
  { sampleSemiRigid with position := (600, 100), velocity := (0, 0), stress := 10 }

/-- A particle beyond the left 100-unit margin with speed magnitude 20
(velocity `(12, 16)`). -/
def sampleFarSlow : DebrisParticle :=
  { sampleRigid with position := (-150, 400), velocity := (12, 16) }

/-- A particle beyond the left 100-unit margin with speed magnitude 60
(velocity `(36, 48)`). -/
def sampleFarFast : DebrisParticle :=
  { sampleRigid with position := (-150, 400), velocity := (36, 48) }

/-- An empty population. -/
def sysEmpty : ExplosionSystem := ⟨[], []⟩

/-- A one-particle population for the determinism witness. -/
def sysOne : ExplosionSystem := ⟨[sampleGroundRigid], []⟩

/-- `update_deformation` preserves `position`. -/
theorem ud_position (p : DebrisParticle) (f : ℚ) :
    (p.update_deformation f).position = p.position := by
  simp only [DebrisParticle.update_deformation]
  split_ifs <;> rfl

/-- `update_deformation` preserves `velocity`. -/
theorem ud_velocity (p : DebrisParticle) (f : ℚ) :
    (p.update_deformation f).velocity = p.velocity := by
  simp only [DebrisParticle.update_deformation]
  split_ifs <;> rfl

/-- `update_deformation` preserves `material_type`. -/
theorem ud_material_type (p : DebrisParticle) (f : ℚ) :
    (p.update_deformation f).material_type = p.material_type := by
  simp only [DebrisParticle.update_deformation]
  split_ifs <;> rfl

/-- `update_deformation` preserves `collision_count`. -/
theorem ud_collision_count (p : DebrisParticle) (f : ℚ) :
    (p.update_deformation f).collision_count = p.collision_count := by
  simp only [DebrisParticle.update_deformation]
  split_ifs <;> rfl

/-- Core of the SemiRigid invariant: one `update_deformation` call
preserves `SemiRigidInv` and never decreases `deformation`. -/
theorem ud_preserves_inv (p : DebrisParticle) (f : ℚ) (h : SemiRigidInv p) :
    SemiRigidInv (p.update_deformation f) ∧
      p.deformation ≤ (p.update_deformation f).deformation := by
  obtain ⟨hs, hd0, hd3⟩ := h
  simp only [DebrisParticle.update_deformation]
  split_ifs with hmat hth
  · rw [hmat] at hth
    simp only [MATERIALS] at hth
    refine ⟨⟨?_, ?_, ?_⟩, ?_⟩ <;> simp [hmat, MATERIALS]
    · constructor <;> linarith
    · exact ⟨by linarith, by linarith⟩
  · exact ⟨⟨hs, hd0, hd3⟩, le_refl _⟩
  · exact ⟨⟨hs, hd0, hd3⟩, le_refl _⟩

/-- Under the invariant (and a nonnegative original size),
`update_deformation` can only shrink `size`. -/
theorem ud_size_le (p : DebrisParticle) (f : ℚ)
    (h : p.material_type = MaterialType.SEMI_RIGID →
      SemiRigidInv p ∧ 0 ≤ p.original_size) :
    (p.update_deformation f).size ≤ p.size := by
  simp only [DebrisParticle.update_deformation]
  split_ifs with hmat hth
  · obtain ⟨⟨hs, hd0, hd3⟩, hos⟩ := h hmat
    rw [hmat] at hth
    simp only [MATERIALS] at hth
    simp only [hs]
    have hmin : p.deformation ≤
        min (p.deformation + (p.stress + f / (p.mass * 100) -
          (MATERIALS p.material_type).deformation_threshold) / 1000) 0.3 := by
      simp only [hmat, MATERIALS]
      exact le_min (by linarith) hd3
    have := mul_le_mul_of_nonneg_left (sub_le_sub_left hmin 1) hos
    simpa using this
  · exact le_refl _
  · exact le_refl _

/-- `groundStep` preserves the horizontal position. -/
theorem gs_pos1 (p : DebrisParticle) :
    (p.groundStep).1.position.1 = p.position.1 := by
  simp only [DebrisParticle.groundStep]
  split_ifs with hg hm <;> simp [ud_position]

/-- On ground contact, `groundStep` clamps the vertical position. -/
theorem gs_pos2 (p : DebrisParticle)
    (hg : p.position.2 + p.size > GROUND_Y) :
    (p.groundStep).1.position.2 = GROUND_Y - p.size := by
  simp only [DebrisParticle.groundStep, if_pos hg]
  split_ifs with hm <;> simp [ud_position]

/-- On ground contact, `groundStep` reports a collision. -/
theorem gs_flag (p : DebrisParticle)
    (hg : p.position.2 + p.size > GROUND_Y) :
    (p.groundStep).2 = true := by
  simp only [DebrisParticle.groundStep, if_pos hg]

/-- `groundStep` preserves `material_type`. -/
theorem gs_mat (p : DebrisParticle) :
    (p.groundStep).1.material_type = p.material_type := by
  simp only [DebrisParticle.groundStep]
  split_ifs with hg hm <;> simp [ud_material_type]

/-- Ground response of a Rigid particle. -/
theorem gs_vel_rigid (p : DebrisParticle)
    (hg : p.position.2 + p.size > GROUND_Y)
    (hm : p.material_type = MaterialType.RIGID) :
    (p.groundStep).1.velocity =
      (p.velocity.1 * FRICTION,
        -p.velocity.2 * (MATERIALS MaterialType.RIGID).elasticity) := by
  simp only [DebrisParticle.groundStep, if_pos hg]
  rw [if_pos (by simpa using hm)]
  simp [ud_velocity, hm]

/-- Ground response of a SemiRigid or Soft particle. -/
theorem gs_vel_nonrigid (p : DebrisParticle)
    (hg : p.position.2 + p.size > GROUND_Y)
    (hm : p.material_type ≠ MaterialType.RIGID) :
    (p.groundStep).1.velocity =
      (p.velocity.1 * (FRICTION * 0.8),
        -p.velocity.2 * ((MATERIALS p.material_type).elasticity *
          (MATERIALS p.material_type).damping)) := by
  simp only [DebrisParticle.groundStep, if_pos hg]
  rw [if_neg (by simpa using hm)]
  simp [ud_velocity]

/-- Under the invariant, `groundStep` can only shrink `size`. -/
theorem gs_size_le (p : DebrisParticle)
    (h : p.material_type = MaterialType.SEMI_RIGID →
      SemiRigidInv p ∧ 0 ≤ p.original_size) :
    (p.groundStep).1.size ≤ p.size := by
  simp only [DebrisParticle.groundStep]
  split_ifs with hg hm
  · refine ud_size_le _ _ ?_
    intro hmm
    rw [hmm] at hm
    exact absurd hm (by decide)
  · exact ud_size_le _ _ (fun hmm => h hmm)
  · exact le_refl _

/-- `wallStep` does nothing when the particle is clear of both walls. -/
theorem ws_noop (p : DebrisParticle)
    (h1 : ¬(p.position.1 - p.size < 0))
    (h2 : ¬(p.position.1 + p.size > SCREEN_WIDTH)) :
    p.wallStep = (p, false) := by
  simp only [DebrisParticle.wallStep, if_neg h1, if_neg h2]

/-- `groundStep` preserves `SemiRigidInv`. -/
theorem gs_preserves_inv (p : DebrisParticle) (h : SemiRigidInv p) :
    SemiRigidInv (p.groundStep).1 := by
  simp only [DebrisParticle.groundStep]
  split_ifs with hg hm
  · refine (ud_preserves_inv _ _ ?_).1
    exact h
  · refine (ud_preserves_inv _ _ ?_).1
    exact h
  · exact h

/-- `wallStep` preserves `SemiRigidInv`. -/
theorem ws_preserves_inv (p : DebrisParticle) (h : SemiRigidInv p) :
    SemiRigidInv (p.wallStep).1 := by
  simp only [DebrisParticle.wallStep]
  split_ifs <;> exact h

/-- `handle_boundary_collisions` preserves `SemiRigidInv`. -/
theorem hbc_preserves_inv (p : DebrisParticle) (t : ℚ)
    (h : SemiRigidInv p) :
    SemiRigidInv (p.handle_boundary_collisions t) := by
  have h1 : SemiRigidInv (p.groundStep).1 := gs_preserves_inv p h
  have h2 : SemiRigidInv ((p.groundStep).1.wallStep).1 :=
    ws_preserves_inv _ h1
  rcases hgs : p.groundStep with ⟨p1, c1⟩
  rcases hws : p1.wallStep with ⟨p2, c2⟩
  rw [hgs] at h1
  rw [hgs, hws] at h2
  simp only [DebrisParticle.handle_boundary_collisions, hgs, hws]
  cases c1 <;> cases c2 <;> simpa using h2

/-- One full `update` call preserves `SemiRigidInv` (the integration
phase does not touch `size`, `deformation` or `original_size`). -/
theorem upd_preserves_inv (p : DebrisParticle) (dt t : ℚ)
    (h : SemiRigidInv p) :
    SemiRigidInv (p.update dt t) :=
  hbc_preserves_inv (p.integrateStep dt) t h

/-- Claim C1: for SemiRigid particles the invariant
`size = originalSize × (1 − deformation)` together with
`deformation ∈ [0, 0.3]` holds at construction, is preserved by every
`update_deformation` call and by every full `update` step, and
`deformation` is monotonically non-decreasing across
`update_deformation` calls. -/
theorem claim_C1_semirigid_deformation_invariant
    (pos vel : ℚ × ℚ) (sz : ℚ) (mt : MaterialType) (r : Rng)
    (p : DebrisParticle) (f dt t : ℚ) :
    SemiRigidInv (DebrisParticle.init pos vel sz mt r).1 ∧
    (SemiRigidInv p →
      (SemiRigidInv (p.update_deformation f) ∧
        p.deformation ≤ (p.update_deformation f).deformation) ∧
      SemiRigidInv (p.update dt t)) := by
  refine ⟨⟨?_, ?_, ?_⟩, ?_⟩
  · simp [SemiRigidInv, DebrisParticle.init, uniform, Rng.next]
  · simp [SemiRigidInv, DebrisParticle.init, uniform, Rng.next]
  · norm_num [SemiRigidInv, DebrisParticle.init, uniform, Rng.next]
  · intro h
    exact ⟨ud_preserves_inv p f h, upd_preserves_inv p dt t h⟩

/-- Witness for C1 at a concrete SemiRigid particle and a collision
force large enough to exercise the deformation branch. -/
theorem claim_C1_witness :
    SemiRigidInv (DebrisParticle.init (600, 400) (0, 0) 5 .SEMI_RIGID rngZero).1 ∧
    (SemiRigidInv (sampleSemiRigid.update_deformation 2700) ∧
      sampleSemiRigid.deformation ≤
        (sampleSemiRigid.update_deformation 2700).deformation) ∧
    SemiRigidInv (sampleSemiRigid.update 1 0) := by
  have h : SemiRigidInv sampleSemiRigid := by
    refine ⟨?_, ?_, ?_⟩ <;> norm_num [sampleSemiRigid, SemiRigidInv]
  have := claim_C1_semirigid_deformation_invariant (600, 400) (0, 0) 5
    .SEMI_RIGID rngZero sampleSemiRigid 2700 1 0
  exact ⟨this.1, this.2 h⟩

/-- Claim C2: `update_deformation` is the identity on Rigid and Soft
particles, whatever the collision force. -/
theorem claim_C2_rigid_soft_noop (p : DebrisParticle) (f : ℚ)
    (h : p.material_type = MaterialType.RIGID ∨
      p.material_type = MaterialType.SOFT) :
    p.update_deformation f = p := by
  have hne : p.material_type ≠ MaterialType.SEMI_RIGID := by
    rcases h with h | h <;> simp [h]
  simp [DebrisParticle.update_deformation, hne]

/-- Witness for C2 at a concrete Rigid particle. -/
theorem claim_C2_witness : sampleRigid.update_deformation 900 = sampleRigid :=
  claim_C2_rigid_soft_noop sampleRigid 900 (Or.inl rfl)

/-- Claim C3: on ground contact (with the particle clear of both walls)
`handle_boundary_collisions` clamps the vertical position to
`GROUND_Y − size`, and scales velocity by `(FRICTION, −elasticity)` for
Rigid particles and by `(FRICTION × 0.8, −elasticity × damping)` for
SemiRigid and Soft particles. -/
theorem claim_C3_ground_collision_response (p : DebrisParticle) (t : ℚ)
    (hg : p.position.2 + p.size > GROUND_Y)
    (hL : p.size ≤ p.position.1)
    (hR : p.position.1 + p.size ≤ SCREEN_WIDTH)
    (hsr : p.material_type = MaterialType.SEMI_RIGID →
      SemiRigidInv p ∧ 0 ≤ p.original_size) :
    (p.handle_boundary_collisions t).position.2 = GROUND_Y - p.size ∧
    (p.material_type = MaterialType.RIGID →
      (p.handle_boundary_collisions t).velocity =
        (p.velocity.1 * FRICTION,
          -p.velocity.2 * (MATERIALS MaterialType.RIGID).elasticity)) ∧
    (p.material_type ≠ MaterialType.RIGID →
      (p.handle_boundary_collisions t).velocity =
        (p.velocity.1 * (FRICTION * 0.8),
          -p.velocity.2 * ((MATERIALS p.material_type).elasticity *
            (MATERIALS p.material_type).damping))) := by
  rcases hgs : p.groundStep with ⟨p1, c1⟩
  have hsz : p1.size ≤ p.size := by
    have := gs_size_le p hsr; rwa [hgs] at this
  have hp1 : p1.position.1 = p.position.1 := by
    have := gs_pos1 p; rwa [hgs] at this
  have hfl : c1 = true := by
    have := gs_flag p hg; rwa [hgs] at this
  have hws : p1.wallStep = (p1, false) :=
    ws_noop _ (by rw [hp1]; push_neg; linarith) (by rw [hp1]; push_neg; linarith)
  simp only [DebrisParticle.handle_boundary_collisions, hgs, hws, hfl,
    Bool.true_or, if_true]
  refine ⟨?_, ?_, ?_⟩
  · have := gs_pos2 p hg; rw [hgs] at this; simpa using this
  · intro hm
    have := gs_vel_rigid p hg hm; rw [hgs] at this; simpa using this
  · intro hm
    have := gs_vel_nonrigid p hg hm; rw [hgs] at this; simpa using this

/-- Witness for C3: the spec's worked example.  A Rigid particle
(elasticity 0.2) touching the ground with velocity `(100, 200)` leaves
the collision with velocity `(100 × FRICTION, −40)`. -/
theorem claim_C3_witness :
    (sampleGroundRigid.handle_boundary_collisions 0).position.2 =
      GROUND_Y - sampleGroundRigid.size ∧
    (sampleGroundRigid.handle_boundary_collisions 0).velocity =
      (100 * FRICTION, -40) := by
  have h := claim_C3_ground_collision_response sampleGroundRigid 0
    (by norm_num [sampleGroundRigid, sampleRigid, sampleSemiRigid, GROUND_Y,
      SCREEN_HEIGHT])
    (by norm_num [sampleGroundRigid, sampleRigid, sampleSemiRigid])
    (by norm_num [sampleGroundRigid, sampleRigid, sampleSemiRigid, SCREEN_WIDTH])
    (by intro hm; exact absurd hm (by decide))
  refine ⟨h.1, ?_⟩
  have h2 := h.2.1 rfl
  rw [h2]
  norm_num [sampleGroundRigid, sampleRigid, sampleSemiRigid, MATERIALS, FRICTION]

/-- `wallStep` preserves `stress`. -/
theorem ws_stress (p : DebrisParticle) :
    (p.wallStep).1.stress = p.stress := by
  simp only [DebrisParticle.wallStep]
  split_ifs <;> rfl

/-- Without ground contact, `handle_boundary_collisions` leaves
`stress` unchanged (wall collisions never touch it). -/
theorem hbc_stress_no_ground (p : DebrisParticle) (t : ℚ)
    (hng : ¬(p.position.2 + p.size > GROUND_Y)) :
    (p.handle_boundary_collisions t).stress = p.stress := by
  have hgs : p.groundStep = (p, false) := by
    simp only [DebrisParticle.groundStep, if_neg hng]
  rcases hws : p.wallStep with ⟨p2, c2⟩
  have h2 : p2.stress = p.stress := by
    have := ws_stress p; rwa [hws] at this
  simp only [DebrisParticle.handle_boundary_collisions, hgs, hws]
  cases c2 <;> simpa using h2

/-- Counterexample to claim C4 as stated: a SemiRigid particle with
positive stress that spends a step airborne keeps exactly the same
stress — the 0.95 relaxation is not applied on every step. -/
theorem claim_C4_counterexample :
    0 < sampleAirborne.stress ∧
      (sampleAirborne.update 1 0).stress = sampleAirborne.stress := by
  constructor
  · norm_num [sampleAirborne, sampleSemiRigid]
  · norm_num [DebrisParticle.update, DebrisParticle.integrateStep,
      DebrisParticle.handle_boundary_collisions, DebrisParticle.groundStep,
      DebrisParticle.wallStep, DebrisParticle.update_deformation,
      sampleAirborne, sampleSemiRigid, GRAVITY, AIR_RESISTANCE, GROUND_Y,
      SCREEN_HEIGHT, SCREEN_WIDTH, FRICTION, MATERIALS]

/-- Claim C4 as amended: for a SemiRigid particle, stress is multiplied
by 0.95 on each `update_deformation` call (after the increment
`collisionForce / (mass × 100)` is added), and such calls happen only on
ground contact — a step without ground contact leaves stress
unchanged. -/
theorem claim_C4_amended_stress_relaxation (p : DebrisParticle)
    (f dt t : ℚ) :
    (p.material_type = MaterialType.SEMI_RIGID →
      (p.update_deformation f).stress =
        (p.stress + f / (p.mass * 100)) * 0.95) ∧
    (¬((p.integrateStep dt).position.2 + (p.integrateStep dt).size >
        GROUND_Y) →
      (p.update dt t).stress = p.stress) := by
  constructor
  · intro hm
    simp only [DebrisParticle.update_deformation, if_pos hm]
    split_ifs <;> rfl
  · intro hng
    exact hbc_stress_no_ground (p.integrateStep dt) t hng

/-- Witness for the amended C4 at a concrete airborne SemiRigid
particle. -/
theorem claim_C4_witness :
    (sampleAirborne.update_deformation 500).stress =
      (sampleAirborne.stress + 500 / (sampleAirborne.mass * 100)) * 0.95 ∧
    (sampleAirborne.update 1 0).stress = sampleAirborne.stress :=
  ⟨(claim_C4_amended_stress_relaxation sampleAirborne 500 1 0).1 rfl,
   (claim_C4_amended_stress_relaxation sampleAirborne 500 1 0).2
     (by norm_num [DebrisParticle.integrateStep, sampleAirborne,
       sampleSemiRigid, GRAVITY, AIR_RESISTANCE, GROUND_Y, SCREEN_HEIGHT])⟩

/-- Claim C5 finding: `DebrisParticle.__init__` has no `size > 0` guard.
A particle constructed with `size = 0` is accepted and gets
`mass = 0` (the general mass formula `size² × density / 1000` is also
recorded), contradicting the required fail-fast rejection. -/
theorem claim_C5_size_zero_mass_zero :
    ((DebrisParticle.init (0, 0) (0, 0) 0 MaterialType.RIGID rngZero).1.mass
      = 0) ∧
    ∀ (pos vel : ℚ × ℚ) (sz : ℚ) (mt : MaterialType) (r : Rng),
      (DebrisParticle.init pos vel sz mt r).1.mass =
        sz ^ 2 * (MATERIALS mt).density / 1000 := by
  constructor
  · norm_num [DebrisParticle.init, uniform, Rng.next]
  · intro pos vel sz mt r
    rfl

/-- `wallStep` preserves `collision_count`. -/
theorem ws_count (p : DebrisParticle) :
    (p.wallStep).1.collision_count = p.collision_count := by
  simp only [DebrisParticle.wallStep]
  split_ifs <;> rfl

/-- `groundStep` preserves `collision_count`. -/
theorem gs_count (p : DebrisParticle) :
    (p.groundStep).1.collision_count = p.collision_count := by
  simp only [DebrisParticle.groundStep]
  split_ifs <;> simp [ud_collision_count]

/-- `groundStep` reports a collision exactly on ground contact. -/
theorem gs_flag_iff (p : DebrisParticle) :
    (p.groundStep).2 = true ↔ groundContact p := by
  simp only [DebrisParticle.groundStep]
  split_ifs with hg <;> simp [groundContact, hg]

/-- `wallStep` reports a collision exactly on left or right wall
contact. -/
theorem ws_flag_iff (p : DebrisParticle) :
    (p.wallStep).2 = true ↔ leftContact p ∨ rightContact p := by
  simp only [DebrisParticle.wallStep]
  split_ifs with h1 h2 <;> simp_all [leftContact, rightContact]

/-- `handle_boundary_collisions` adds exactly 1 to `collision_count`
when at least one boundary condition triggers (the wall conditions being
evaluated on the post-ground-response state, as in the source), and 0
otherwise. -/
theorem hbc_count (p : DebrisParticle) (t : ℚ) :
    (p.handle_boundary_collisions t).collision_count =
      p.collision_count +
        (if groundContact p ∨ leftContact (p.groundStep).1 ∨
            rightContact (p.groundStep).1 then 1 else 0) := by
  rcases hgs : p.groundStep with ⟨p1, c1⟩
  rcases hws : p1.wallStep with ⟨p2, c2⟩
  have h1 : p1.collision_count = p.collision_count := by
    have := gs_count p; rwa [hgs] at this
  have h2 : p2.collision_count = p1.collision_count := by
    have := ws_count p1; rwa [hws] at this
  have hc1 : c1 = true ↔ groundContact p := by
    have := gs_flag_iff p; rwa [hgs] at this
  have hc2 : c2 = true ↔ leftContact p1 ∨ rightContact p1 := by
    have := ws_flag_iff p1; rwa [hws] at this
  simp only [DebrisParticle.handle_boundary_collisions, hgs, hws]
  cases c1 <;> cases c2 <;> simp_all

/-- Claim C6: per `update` call, `collision_count` grows by exactly 1
when at least one boundary condition triggers on the integrated state
(even when ground and a wall trigger together) and by 0 otherwise; in
particular it is monotonically non-decreasing. -/
theorem claim_C6_collision_count (p : DebrisParticle) (dt t : ℚ) :
    ((p.update dt t).collision_count =
      p.collision_count +
        (if groundContact (p.integrateStep dt) ∨
            leftContact ((p.integrateStep dt).groundStep).1 ∨
            rightContact ((p.integrateStep dt).groundStep).1
         then 1 else 0)) ∧
    p.collision_count ≤ (p.update dt t).collision_count := by
  have h := hbc_count (p.integrateStep dt) t
  have hic : (p.integrateStep dt).collision_count = p.collision_count := rfl
  rw [hic] at h
  refine ⟨h, ?_⟩
  rw [DebrisParticle.update, h]
  exact Nat.le_add_right _ _

/-- Claim C7: `is_particle_active` is false at `x = −150` with speed
magnitude 20, and true at `x = −150` with speed magnitude 60 when the
settled condition (speed below 10 with more than 5 collisions) does not
hold. -/
theorem claim_C7_is_particle_active (p q : DebrisParticle)
    (hp1 : p.position.1 = -150) (hpv : magnitudeSq p.velocity = 20 ^ 2)
    (hq1 : q.position.1 = -150) (hqv : magnitudeSq q.velocity = 60 ^ 2)
    (hqs : ¬(magnitudeSq q.velocity < 10 ^ 2 ∧ q.collision_count > 5)) :
    is_particle_active p = false ∧ is_particle_active q = true := by
  constructor
  · have hc : (p.position.1 < -100 ∨ p.position.1 > SCREEN_WIDTH + 100 ∨
        p.position.2 > SCREEN_HEIGHT + 100) ∧
        magnitudeSq p.velocity < 50 ^ 2 :=
      ⟨Or.inl (by rw [hp1]; norm_num), by rw [hpv]; norm_num⟩
    simp only [is_particle_active, if_pos hc]
  · have hc : ¬((q.position.1 < -100 ∨ q.position.1 > SCREEN_WIDTH + 100 ∨
        q.position.2 > SCREEN_HEIGHT + 100) ∧
        magnitudeSq q.velocity < 50 ^ 2) := by
      rw [hqv]
      intro h
      have := h.2
      norm_num at this
    simp only [is_particle_active, if_neg hc, if_neg hqs]

/-- Witness for C7 at the concrete particles with velocities `(12, 16)`
(speed 20) and `(36, 48)` (speed 60). -/
theorem claim_C7_witness :
    is_particle_active sampleFarSlow = false ∧
      is_particle_active sampleFarFast = true := by
  refine claim_C7_is_particle_active sampleFarSlow sampleFarFast ?_ ?_ ?_ ?_ ?_
  · norm_num [sampleFarSlow, sampleRigid, sampleSemiRigid]
  · norm_num [magnitudeSq, sampleFarSlow, sampleRigid, sampleSemiRigid]
  · norm_num [sampleFarFast, sampleRigid, sampleSemiRigid]
  · norm_num [magnitudeSq, sampleFarFast, sampleRigid, sampleSemiRigid]
  · norm_num [magnitudeSq, sampleFarFast, sampleRigid, sampleSemiRigid]

/-- `spawnOne` advances the random cursor by exactly 7 draws. -/
theorem spawnOne_rng (trig : ℚ → ℚ × ℚ) (pos : ℚ × ℚ) (force : ℚ)
    (mt : MaterialType) (r : Rng) :
    (spawnOne trig pos force mt r).2 = ⟨r.g, r.i + 7⟩ := rfl

/-- `spawnOne` tags the particle with the requested material kind. -/
theorem spawnOne_mat (trig : ℚ → ℚ × ℚ) (pos : ℚ × ℚ) (force : ℚ)
    (mt : MaterialType) (r : Rng) :
    (spawnOne trig pos force mt r).1.material_type = mt := rfl

/-- The size of a spawned particle is the fifth `uniform(3, 15)` draw. -/
theorem spawnOne_size (trig : ℚ → ℚ × ℚ) (pos : ℚ × ℚ) (force : ℚ)
    (mt : MaterialType) (r : Rng) :
    (spawnOne trig pos force mt r).1.size =
      3 + (15 - 3) * r.g (r.i + 4) := rfl

/-- With unit draws, a spawned size lies in `[3, 15]`. -/
theorem spawnOne_size_bounds (trig : ℚ → ℚ × ℚ) (pos : ℚ × ℚ) (force : ℚ)
    (mt : MaterialType) (r : Rng) (hr : ∀ k, 0 ≤ r.g k ∧ r.g k ≤ 1) :
    3 ≤ (spawnOne trig pos force mt r).1.size ∧
      (spawnOne trig pos force mt r).1.size ≤ 15 := by
  rw [spawnOne_size]
  obtain ⟨h0, h1⟩ := hr (r.i + 4)
  constructor <;> nlinarith

/-- Unfolding equation for `spawnList` at a successor count. -/
theorem spawnList_cons (trig : ℚ → ℚ × ℚ) (pos : ℚ × ℚ) (force : ℚ)
    (mt : MaterialType) (n : ℕ) (r : Rng) :
    spawnList trig pos force mt (n + 1) r =
      ((spawnOne trig pos force mt r).1 ::
        (spawnList trig pos force mt n (spawnOne trig pos force mt r).2).1,
       (spawnList trig pos force mt n (spawnOne trig pos force mt r).2).2) :=
  rfl

/-- `spawnList` produces exactly `n` particles. -/
theorem spawnList_length (trig : ℚ → ℚ × ℚ) (pos : ℚ × ℚ) (force : ℚ)
    (mt : MaterialType) (n : ℕ) :
    ∀ r : Rng, (spawnList trig pos force mt n r).1.length = n := by
  induction n with
  | zero => intro r; rfl
  | succ n ih =>
    intro r
    rw [spawnList_cons]
    simp [ih]

/-- Every particle produced by `spawnList` has the requested kind and a
size in `[3, 15]`. -/
theorem spawnList_mem (trig : ℚ → ℚ × ℚ) (pos : ℚ × ℚ) (force : ℚ)
    (mt : MaterialType) (n : ℕ) :
    ∀ r : Rng, (∀ k, 0 ≤ r.g k ∧ r.g k ≤ 1) →
      ∀ x ∈ (spawnList trig pos force mt n r).1,
        x.material_type = mt ∧ 3 ≤ x.size ∧ x.size ≤ 15 := by
  induction n with
  | zero =>
    intro r hr x hx
    simp [spawnList] at hx
  | succ n ih =>
    intro r hr x hx
    rw [spawnList_cons] at hx
    simp only [List.mem_cons] at hx
    rcases hx with rfl | hx
    · exact ⟨spawnOne_mat trig pos force mt r,
        spawnOne_size_bounds trig pos force mt r hr⟩
    · refine ih _ ?_ x hx
      intro k
      simpa [spawnOne_rng] using hr k

/-- Claim C8: `create_explosion` adds exactly `count` particles and
exactly one explosion record, and every added particle has the requested
material kind and a size in `[3, 15]`. -/
theorem claim_C8_create_explosion (sys : ExplosionSystem)
    (trig : ℚ → ℚ × ℚ) (center : ℚ × ℚ) (force : ℚ) (count : ℕ)
    (mt : MaterialType) (now : ℚ) (r : Rng)
    (hr : ∀ k, 0 ≤ r.g k ∧ r.g k ≤ 1) :
    (sys.create_explosion trig center force count mt now r).1.particles.length =
      sys.particles.length + count ∧
    (sys.create_explosion trig center force count mt now r).1.explosions.length =
      sys.explosions.length + 1 ∧
    ∀ q ∈ (sys.create_explosion trig center force count mt now r).1.particles.drop
        sys.particles.length,
      q.material_type = mt ∧ 3 ≤ q.size ∧ q.size ≤ 15 := by
  rcases hsl : spawnList trig center force mt count r with ⟨fresh, r2⟩
  have hlen : fresh.length = count := by
    have := spawnList_length trig center force mt count r
    rw [hsl] at this
    simpa using this
  simp only [ExplosionSystem.create_explosion, hsl]
  refine ⟨?_, ?_, ?_⟩
  · simp [hlen]
  · simp
  · intro q hq
    rw [List.drop_left] at hq
    refine spawnList_mem trig center force mt count r hr q ?_
    rw [hsl]
    exact hq

/-- Witness for C8: the spec's worked example,
`spawnExplosion(center, 300, 20, SemiRigid)` on an empty population. -/
theorem claim_C8_witness :
    (sysEmpty.create_explosion trigConst (600, 400) 300 20
        MaterialType.SEMI_RIGID 0 rngZero).1.particles.length =
      sysEmpty.particles.length + 20 ∧
    (sysEmpty.create_explosion trigConst (600, 400) 300 20
        MaterialType.SEMI_RIGID 0 rngZero).1.explosions.length =
      sysEmpty.explosions.length + 1 ∧
    ∀ q ∈ (sysEmpty.create_explosion trigConst (600, 400) 300 20
        MaterialType.SEMI_RIGID 0 rngZero).1.particles.drop
        sysEmpty.particles.length,
      q.material_type = MaterialType.SEMI_RIGID ∧ 3 ≤ q.size ∧ q.size ≤ 15 :=
  claim_C8_create_explosion sysEmpty trigConst (600, 400) 300 20
    MaterialType.SEMI_RIGID 0 rngZero (fun k => by norm_num [rngZero])

/-- Integration commutes with forgetting `last_collision_time`. -/
theorem i_commute (p : DebrisParticle) (dt : ℚ) :
    (eraseTime p).integrateStep dt = eraseTime (p.integrateStep dt) := rfl

/-- `update_deformation` commutes with forgetting
`last_collision_time`. -/
theorem ud_commute (p : DebrisParticle) (f : ℚ) :
    (eraseTime p).update_deformation f = eraseTime (p.update_deformation f) := by
  simp only [DebrisParticle.update_deformation, eraseTime]
  split_ifs <;> rfl

theorem et_position (p : DebrisParticle) : (eraseTime p).position = p.position := rfl

theorem et_velocity (p : DebrisParticle) : (eraseTime p).velocity = p.velocity := rfl

theorem et_size (p : DebrisParticle) : (eraseTime p).size = p.size := rfl

theorem et_mass (p : DebrisParticle) : (eraseTime p).mass = p.mass := rfl

theorem et_material (p : DebrisParticle) :
    (eraseTime p).material_type = p.material_type := rfl

/-- `groundStep` commutes with forgetting `last_collision_time`. -/
theorem gs_commute (p : DebrisParticle) :
    (eraseTime p).groundStep = (eraseTime (p.groundStep).1, (p.groundStep).2) := by
  simp only [DebrisParticle.groundStep, et_position, et_size, et_material,
    et_velocity, et_mass]
  split_ifs with hg hm
  · congr 1
    rw [← ud_commute]
    rfl
  · congr 1
    rw [← ud_commute]
    rfl
  · rfl

/-- `wallStep` commutes with forgetting `last_collision_time`. -/
theorem ws_commute (p : DebrisParticle) :
    (eraseTime p).wallStep = (eraseTime (p.wallStep).1, (p.wallStep).2) := by
  simp only [DebrisParticle.wallStep, et_position, et_size, et_material,
    et_velocity]
  split_ifs <;> rfl

/-- Up to `last_collision_time`, the result of
`handle_boundary_collisions` is independent of both the stored and the
passed time. -/
theorem hbc_norm (p : DebrisParticle) (t : ℚ) :
    eraseTime (p.handle_boundary_collisions t) =
      eraseTime ((eraseTime p).handle_boundary_collisions 0) := by
  rcases hgs : p.groundStep with ⟨p1, c1⟩
  rcases hws : p1.wallStep with ⟨p2, c2⟩
  have hgs' : (eraseTime p).groundStep = (eraseTime p1, c1) := by
    rw [gs_commute, hgs]
  have hws' : (eraseTime p1).wallStep = (eraseTime p2, c2) := by
    rw [ws_commute, hws]
  simp only [DebrisParticle.handle_boundary_collisions, hgs, hws, hgs', hws']
  cases c1 <;> cases c2 <;> rfl

/-- The trajectory part of `update` depends only on the trajectory part
of the input, not on the time parameter. -/
theorem norm_update (p : DebrisParticle) (dt t : ℚ) :
    eraseTime (p.update dt t) = eraseTime ((eraseTime p).update dt 0) := by
  simp only [DebrisParticle.update, i_commute]
  exact hbc_norm (p.integrateStep dt) t

/-- Trajectory-equal particles stay trajectory-equal under `update`,
whatever times are passed. -/
theorem upd_erase_eq (a b : DebrisParticle)
    (hab : eraseTime a = eraseTime b) (dt t s : ℚ) :
    eraseTime (a.update dt t) = eraseTime (b.update dt s) := by
  rw [norm_update a dt t, hab, ← norm_update b dt s]

/-- The culling predicate ignores `last_collision_time`. -/
theorem active_commute (p : DebrisParticle) :
    is_particle_active (eraseTime p) = is_particle_active p := rfl

/-- Prune-then-integrate preserves trajectory equality of particle
lists, for any pair of time parameters. -/
theorem filtermap_erase (l1 : List DebrisParticle) :
    ∀ l2 : List DebrisParticle, l1.map eraseTime = l2.map eraseTime →
    ∀ dt t s : ℚ,
    (((l1.filter fun p => is_particle_active p).map
        fun p => p.update dt t).map eraseTime) =
    (((l2.filter fun p => is_particle_active p).map
        fun p => p.update dt s).map eraseTime) := by
  induction l1 with
  | nil =>
    intro l2 h dt t s
    cases l2 with
    | nil => rfl
    | cons b bs => simp at h
  | cons a as ih =>
    intro l2 h dt t s
    cases l2 with
    | nil => simp at h
    | cons b bs =>
      simp only [List.map_cons, List.cons.injEq] at h
      obtain ⟨hab, hasbs⟩ := h
      have hact : is_particle_active a = is_particle_active b := by
        rw [← active_commute a, hab, active_commute b]
      simp only [List.filter_cons, hact]
      cases hb : is_particle_active b with
      | false =>
        simp only [Bool.false_eq_true, if_false]
        exact ih bs hasbs dt t s
      | true =>
        simp only [if_true]
        simp only [List.map_cons, List.cons.injEq]
        exact ⟨upd_erase_eq a b hab dt t s, ih bs hasbs dt t s⟩

/-- One `ExplosionSystem.update` preserves trajectory equality, for any
pair of clock readings. -/
theorem sys_update_erase (s1 s2 : ExplosionSystem)
    (h : s1.particles.map eraseTime = s2.particles.map eraseTime)
    (dt t u : ℚ) :
    (s1.update dt t).particles.map eraseTime =
      (s2.update dt u).particles.map eraseTime :=
  filtermap_erase s1.particles s2.particles h dt t u

/-- Runs over step lists with the same `dt` sequence preserve trajectory
equality, whatever the clock readings. -/
theorem run_erase (steps1 : List (ℚ × ℚ)) :
    ∀ steps2 : List (ℚ × ℚ), steps1.map Prod.fst = steps2.map Prod.fst →
    ∀ s1 s2 : ExplosionSystem,
      s1.particles.map eraseTime = s2.particles.map eraseTime →
      (s1.run steps1).particles.map eraseTime =
        (s2.run steps2).particles.map eraseTime := by
  induction steps1 with
  | nil =>
    intro steps2 h s1 s2 hs
    cases steps2 with
    | nil => exact hs
    | cons b bs => simp at h
  | cons a as ih =>
    intro steps2 h s1 s2 hs
    cases steps2 with
    | nil => simp at h
    | cons b bs =>
      simp only [List.map_cons, List.cons.injEq] at h
      obtain ⟨hfst, htail⟩ := h
      have hstep : (s1.update a.1 a.2).particles.map eraseTime =
          (s2.update b.1 b.2).particles.map eraseTime := by
        rw [hfst]
        exact sys_update_erase s1 s2 hs b.1 a.2 b.2
      exact ih bs htail (s1.update a.1 a.2) (s2.update b.1 b.2) hstep

/-- Claim C9: two runs of `step` over the same particle set and the same
`dt` sequence produce identical particle trajectories (all particle
state except the diagnostic `last_collision_time`), regardless of the
clock values supplied for `pygame.time.get_ticks()` — the step function
is deterministic with no hidden time-of-day dependence in the
trajectories. -/
theorem claim_C9_step_determinism (sys : ExplosionSystem)
    (steps1 steps2 : List (ℚ × ℚ))
    (h : steps1.map Prod.fst = steps2.map Prod.fst) :
    (sys.run steps1).particles.map eraseTime =
      (sys.run steps2).particles.map eraseTime :=
  run_erase steps1 steps2 h sys sys rfl

/-- Witness for C9: one step of a one-particle system under two
different clock readings. -/
theorem claim_C9_witness :
    (sysOne.run [(1, 5)]).particles.map eraseTime =
      (sysOne.run [(1, 99)]).particles.map eraseTime :=
  claim_C9_step_determinism sysOne [(1, 5)] [(1, 99)] rfl

/-- Scaling by a factor in `[0, 1]` cannot increase a magnitude. -/
theorem abs_mul_le_of_le_one (a c : ℚ) (h0 : 0 ≤ c) (h1 : c ≤ 1) :
    |a * c| ≤ |a| := by
  rw [abs_mul, abs_of_nonneg h0]
  nlinarith [abs_nonneg a]

/-- Reflecting and scaling by a factor in `[0, 1]` cannot increase a
magnitude. -/
theorem abs_neg_mul_le_of_le_one (a c : ℚ) (h0 : 0 ≤ c) (h1 : c ≤ 1) :
    |-a * c| ≤ |a| := by
  rw [neg_mul, abs_neg]
  exact abs_mul_le_of_le_one a c h0 h1

/-- The ground response never increases either velocity component in
magnitude: every multiplier (`FRICTION`, `FRICTION × 0.8`,
`elasticity`, `elasticity × damping`) lies in `[0, 1]` for all three
materials. -/
theorem gs_abs (p : DebrisParticle) :
    |(p.groundStep).1.velocity.1| ≤ |p.velocity.1| ∧
      |(p.groundStep).1.velocity.2| ≤ |p.velocity.2| := by
  by_cases hg : p.position.2 + p.size > GROUND_Y
  · by_cases hm : p.material_type = MaterialType.RIGID
    · rw [gs_vel_rigid p hg hm]
      constructor
      · exact abs_mul_le_of_le_one _ _ (by norm_num [FRICTION])
          (by norm_num [FRICTION])
      · exact abs_neg_mul_le_of_le_one _ _ (by norm_num [MATERIALS])
          (by norm_num [MATERIALS])
    · rw [gs_vel_nonrigid p hg hm]
      rcases hmt : p.material_type with _ | _ | _
      · exact absurd hmt hm
      · exact ⟨abs_mul_le_of_le_one _ _ (by norm_num [FRICTION])
            (by norm_num [FRICTION]),
          abs_neg_mul_le_of_le_one _ _ (by norm_num [MATERIALS])
            (by norm_num [MATERIALS])⟩
      · exact ⟨abs_mul_le_of_le_one _ _ (by norm_num [FRICTION])
            (by norm_num [FRICTION]),
          abs_neg_mul_le_of_le_one _ _ (by norm_num [MATERIALS])
            (by norm_num [MATERIALS])⟩
  · simp only [DebrisParticle.groundStep, if_neg hg]
    exact ⟨le_refl _, le_refl _⟩

/-- The wall response never increases the horizontal component in
magnitude (`|−elasticity| ≤ 1` for all three materials) and leaves the
vertical component unchanged. -/
theorem ws_abs (p : DebrisParticle) :
    |(p.wallStep).1.velocity.1| ≤ |p.velocity.1| ∧
      (p.wallStep).1.velocity.2 = p.velocity.2 := by
  have hel : 0 ≤ (MATERIALS p.material_type).elasticity ∧
      (MATERIALS p.material_type).elasticity ≤ 1 := by
    rcases p.material_type with _ | _ | _ <;> norm_num [MATERIALS]
  simp only [DebrisParticle.wallStep]
  split_ifs with h1 h2
  · exact ⟨abs_neg_mul_le_of_le_one _ _ hel.1 hel.2, rfl⟩
  · exact ⟨abs_neg_mul_le_of_le_one _ _ hel.1 hel.2, rfl⟩
  · exact ⟨le_refl _, rfl⟩

/-- Claim C10: for every particle of any of the three materials,
`handle_boundary_collisions` never increases the magnitude of either
velocity component. -/
theorem claim_C10_no_speedup (p : DebrisParticle) (t : ℚ) :
    |(p.handle_boundary_collisions t).velocity.1| ≤ |p.velocity.1| ∧
      |(p.handle_boundary_collisions t).velocity.2| ≤ |p.velocity.2| := by
  rcases hgs : p.groundStep with ⟨p1, c1⟩
  rcases hws : p1.wallStep with ⟨p2, c2⟩
  have h1 := gs_abs p
  rw [hgs] at h1
  have h2 := ws_abs p1
  rw [hws] at h2
  have hv : (p.handle_boundary_collisions t).velocity = p2.velocity := by
    simp only [DebrisParticle.handle_boundary_collisions, hgs, hws]
    cases c1 <;> cases c2 <;> rfl
  rw [hv]
  refine ⟨le_trans h2.1 h1.1, ?_⟩
  have h22 : p2.velocity.2 = p1.velocity.2 := h2.2
  rw [h22]
  exact h1.2
